import Mathlib

/-!
Verification of the `create_training_pairs` pipeline (src/main.py, src/utils.py).

The Python code is shallowly embedded: dictionaries become association
lists over a small value type `PyVal`, the JSON parser and the external
summarizer are parameters, generators become lists paired with an optional
trailing error (preserving laziness: records yielded before a parse error
are listed, and the error fires only when the consumer pulls past them),
and file I/O becomes explicit list state.
-/

namespace CreateTrainingPairs

/-- A Python value as it occurs in the record dictionaries: a string, an
integer, or `None` (also the result of a missing key lookup). -/
inductive PyVal where
  | str (s : String)
  | int (n : Int)
  | none
deriving DecidableEq, Repr

/-- Rendering of a `PyVal` inside an f-string: strings verbatim, integers
in decimal, `None` as the text "None". -/
def pyFormat : PyVal → String
  | .str s => s
  | .int n => toString n
  | .none => "None"

/-- Python truthiness of a `PyVal`: `None`, the empty string and `0` are
falsy, everything else truthy. -/
def pyTruthy : PyVal → Bool
  | .str s => s ≠ ""
  | .int n => n ≠ 0
  | .none => false

/-- Python whitespace recognized by `str.strip()` (ASCII part). -/
def pyIsSpace (c : Char) : Bool :=
  c = ' ' || c = '\t' || c = '\n' || c = '\r' || c = '\x0b' || c = '\x0c'

/-- Embedding of Python `str.strip()`: remove leading and trailing
whitespace, keep interior characters verbatim. -/
def pyStrip (s : String) : String :=
  String.mk (((s.data.dropWhile pyIsSpace).reverse.dropWhile pyIsSpace).reverse)

/-- A JSON object decoded from one input line (`json.loads` result),
as an association list. -/
abbrev Dict := List (String × PyVal)

/-- Python `d.get(k)`: the first value bound to `k`, else `None`. -/
def dictGet (d : Dict) (k : String) : PyVal :=
  match d.find? (fun p => p.1 == k) with
  | some p => p.2
  | Option.none => PyVal.none

/-- Embeds `utils.SongEntry` (src/utils.py lines 10-15). -/
structure SongEntry where
  rapper_name : PyVal
  song_title : PyVal
  song_year : PyVal
  song_lyrics : PyVal
deriving DecidableEq, Repr

/-- Embeds `SongEntry.from_dict` (src/utils.py lines 17-25): tolerant key lookup,
missing keys become `None`. -/
def SongEntry.from_dict (d : Dict) : SongEntry :=
  { rapper_name := dictGet d "rapper"
    song_title := dictGet d "title"
    song_year := dictGet d "year"
    song_lyrics := dictGet d "lyrics" }

/-- The `ValueError` message raised for a malformed line
(src/utils.py line 44); `e` is the decoder's own message. -/
def invalidJsonMsg (n : Nat) (e : String) : String :=
  "Invalid JSON on line " ++ toString n ++ ": " ++ e

/-- Result of running the reader generator to exhaustion: the records it
yielded in order, and, if it aborted, the (1-based line number,
`ValueError` message) of the first malformed line. -/
structure ReadOut where
  records : List Dict
  err : Option (Nat × String)
deriving DecidableEq, Repr

/-- Embeds `JSONLReader.read` (src/utils.py lines 35-44), with the line counter
made explicit. `parse` stands for `json.loads`, returning either a decoded
object or a decoder error message. Each physical line is stripped; blank
lines are skipped silently; the first undecodable line stops the read. -/
def readAux (parse : String → Except String Dict) :
    List String → Nat → ReadOut
  | [], _ => ⟨[], Option.none⟩
  | l :: rest, n =>
    let s := pyStrip l
    if s = "" then readAux parse rest (n + 1)
    else
      match parse s with
      | .ok d =>
        let o := readAux parse rest (n + 1)
        ⟨d :: o.records, o.err⟩
      | .error e => ⟨[], some (n, invalidJsonMsg n e)⟩

/-- Embeds `JSONLReader.read` on a whole file, lines numbered from 1. -/
def JSONLReader.read (parse : String → Except String Dict)
    (lines : List String) : ReadOut :=
  readAux parse lines 1

/-- One output row, as the dict literal built at src/main.py line 66. -/
abbrev Row := List (String × String)

/-- The sink file contents, one decoded row per line. -/
abbrev Sink := List Row

/-- Embeds `JSONLWriter.__init__` (src/utils.py lines 49-52): with
`overwrite=True` the target file is truncated (or created empty). -/
def JSONLWriter.openSink (overwrite : Bool) (s : Sink) : Sink :=
  if overwrite then [] else s

/-- Embeds `JSONLWriter.write_many` (src/utils.py lines 54-57): append the rows
to the file, in order. -/
def JSONLWriter.write_many (s : Sink) (rows : List Row) : Sink := s ++ rows

/-- Embeds `PromptBuilder.build_prompt` (src/utils.py lines 102-106): the two
concatenated f-strings. -/
def PromptBuilder.build_prompt (entry : SongEntry) (summary : String) : String :=
  "Write a rap song in year " ++ pyFormat entry.song_year ++ "'s " ++
    pyFormat entry.rapper_name ++ " style. " ++
    ("The topic is about: " ++ summary)

/-- Embeds `LyricsPostProcessor.add_title_to_lyrics` (src/utils.py lines 116-120). -/
def LyricsPostProcessor.add_title_to_lyrics (title lyrics : String) : String :=
  let title_line := pyStrip title
  if title_line = "" then pyStrip lyrics
  else title_line ++ "\n\n" ++ pyStrip lyrics

/-- The dict literal appended to `out_rows` at src/main.py line 66. -/
def mkRow (prompt completion : String) : Row :=
  [("prompt", prompt), ("completion", completion)]

/-- The cap guard `max_items and i > max_items` (src/main.py line 47):
Python truthiness makes `None` and `0` both skip the comparison. -/
def capHit (maxItems : Option Int) (i : Nat) : Bool :=
  match maxItems with
  | Option.none => false
  | some m => m != 0 && (i : Int) > m

/-- State of the `for` loop of `LyricsDataPipeline.run` after consuming
the records the generator yielded: batches flushed so far, the residual
in-memory buffer, whether the loop hit `break`, and whether it crashed on
a truthy non-string lyrics value (Python `AttributeError` at
`lyrics.strip()`). -/
structure LoopOut where
  writes : List (List Row)
  buffer : List Row
  broke : Bool
  typeErr : Bool
deriving DecidableEq, Repr

/-- The body of the `for` loop of `LyricsDataPipeline.run`
(src/main.py lines 45-75): per record, cap check, skip on falsy lyrics,
summarize, build prompt and completion, buffer the pair, flush at 100.
`summ` stands for `LyricsSummarizer.summarize`. -/
def runLoop (summ : String → String) (maxItems : Option Int) :
    List Dict → Nat → List Row → LoopOut
  | [], _, buf => ⟨[], buf, false, false⟩
  | d :: rest, i, buf =>
    if capHit maxItems i then ⟨[], buf, true, false⟩
    else
      let entry := SongEntry.from_dict d
      match entry.song_lyrics with
      | .str lyr =>
        if lyr = "" then runLoop summ maxItems rest (i + 1) buf
        else
          let summary := summ lyr
          let prompt := PromptBuilder.build_prompt entry summary
          let completion :=
            LyricsPostProcessor.add_title_to_lyrics (pyFormat entry.song_title) lyr
          let buf2 := buf ++ [mkRow prompt completion]
          if buf2.length ≥ 100 then
            let o := runLoop summ maxItems rest (i + 1) []
            ⟨buf2 :: o.writes, o.buffer, o.broke, o.typeErr⟩
          else runLoop summ maxItems rest (i + 1) buf2
      | v =>
        if pyTruthy v then ⟨[], buf, false, true⟩
        else runLoop summ maxItems rest (i + 1) buf

/-- An exception escaping `LyricsDataPipeline.run`. -/
inductive RunError where
  | invalidJson (lineNo : Nat) (msg : String)
  | attrError
deriving DecidableEq, Repr

/-- Observable outcome of one `run` call: the batches handed to
`write_many`, in order, and the exception if one escaped. -/
structure RunResult where
  writes : List (List Row)
  error : Option RunError
deriving DecidableEq, Repr

/-- Embeds `LyricsDataPipeline.run` (src/main.py lines 42-79). The generator is
lazy: its parse error is raised only when the loop pulls past the last
yielded record, so a `break` (cap) or an in-body crash leaves it unraised.
On normal termination the residual buffer is flushed once if non-empty. -/
def LyricsDataPipeline.run (parse : String → Except String Dict)
    (summ : String → String) (lines : List String)
    (maxItems : Option Int) : RunResult :=
  let r := JSONLReader.read parse lines
  let o := runLoop summ maxItems r.records 1 []
  if o.typeErr then ⟨o.writes, some .attrError⟩
  else if o.broke then
    ⟨o.writes ++ (if o.buffer = [] then [] else [o.buffer]), Option.none⟩
  else
    match r.err with
    | some (n, m) => ⟨o.writes, some (.invalidJson n m)⟩
    | Option.none =>
      ⟨o.writes ++ (if o.buffer = [] then [] else [o.buffer]), Option.none⟩

/-- Pairs that reach the sink: concatenation of the flushed batches. -/
def sinkOf (r : RunResult) : List Row := r.writes.flatten

/-- A whole pipeline run against a sink file holding `s`: the constructor
builds the writer with `overwrite=True` (src/main.py line 36), truncating
the file, then every flush appends. -/
def runFile (parse : String → Except String Dict) (summ : String → String)
    (s : Sink) (lines : List String) (maxItems : Option Int) : Sink :=
  (LyricsDataPipeline.run parse summ lines maxItems).writes.foldl
    JSONLWriter.write_many (JSONLWriter.openSink true s)

/-! ### Derived notions used to state the claims -/

/-- A record passes the skip check iff its lyrics value is truthy
(src/main.py line 51). -/
def shouldEmit (d : Dict) : Bool := pyTruthy (dictGet d "lyrics")

/-- The lyrics value of a record is well typed for the pipeline: a string,
or anything falsy (skipped before it can be touched). A truthy non-string
would crash Python at `lyrics.strip()`. -/
def lyricsWF (d : Dict) : Bool :=
  match dictGet d "lyrics" with
  | .str _ => true
  | v => !pyTruthy v

/-- The training pair the pipeline builds for a record with string
lyrics (src/main.py lines 56-66). -/
def rowOf (summ : String → String) (d : Dict) : Row :=
  let entry := SongEntry.from_dict d
  match entry.song_lyrics with
  | .str lyr =>
    mkRow (PromptBuilder.build_prompt entry (summ lyr))
      (LyricsPostProcessor.add_title_to_lyrics (pyFormat entry.song_title) lyr)
  | _ => []

/-- The pairs a record list should contribute, in order: one per record
that passes the skip check. -/
def emittedRows (summ : String → String) (ds : List Dict) : List Row :=
  (ds.filter shouldEmit).map (rowOf summ)

/-- The records a line list decodes to: one per non-blank line that
parses, in input order. -/
def parsedRecords (parse : String → Except String Dict)
    (lines : List String) : List Dict :=
  lines.filterMap fun l =>
    let s := pyStrip l
    if s = "" then Option.none else (parse s).toOption

/-- A line the reader accepts: blank after stripping, or decodable. -/
def okLine (parse : String → Except String Dict) (l : String) : Prop :=
  pyStrip l = "" ∨ ∃ d, parse (pyStrip l) = .ok d

/-- A line the whole pipeline accepts: blank, or decodable to a record
whose lyrics value is well typed. -/
def goodLine (parse : String → Except String Dict) (l : String) : Prop :=
  pyStrip l = "" ∨ ∃ d, parse (pyStrip l) = .ok d ∧ lyricsWF d = true

/-- Split a list into maximal full chunks of `n` and a remainder:
first component the complete chunks in order, second the leftover of
length `< n`. -/
def chunkRec (n : Nat) (l : List Row) : List (List Row) × List Row :=
  if h : 0 < n ∧ n ≤ l.length then
    let p := chunkRec n (l.drop n)
    (l.take n :: p.1, p.2)
  else ([], l)
termination_by l.length
decreasing_by
  simp only [List.length_drop]
  omega

/-- The prompt template exactly as the spec quotes it, with a trailing
period after the substituted summary. -/
def promptTemplateSpec (entry : SongEntry) (summary : String) : String :=
  "Write a rap song in year " ++ pyFormat entry.song_year ++ "'s " ++
    pyFormat entry.rapper_name ++ " style. The topic is about: " ++
    summary ++ "."

/-- The prompt template the code actually produces: identical except that
nothing follows the substituted summary. -/
def promptTemplate (entry : SongEntry) (summary : String) : String :=
  "Write a rap song in year " ++ pyFormat entry.song_year ++ "'s " ++
    pyFormat entry.rapper_name ++ " style. The topic is about: " ++ summary

/-- A concrete stand-in for `json.loads` used in concrete instances:
"A" decodes to a full valid record, "E" to a record with empty lyrics,
anything else fails with message "boom". -/
def demoParse : String → Except String Dict := fun s =>
  if s = "A" then
    Except.ok [("rapper", PyVal.str "Nas"), ("title", PyVal.str "T"),
      ("year", PyVal.int 1999), ("lyrics", PyVal.str "la")]
  else if s = "E" then Except.ok [("lyrics", PyVal.str "")]
  else Except.error "boom"

/-- A stand-in parser that decodes every line to a record whose lyrics
are the line itself. -/
def constParse : String → Except String Dict := fun s =>
  Except.ok [("lyrics", PyVal.str s)]

/-- A concrete stand-in for the external summarizer. -/
def demoSumm : String → String := fun _ => "S"

/-- A concrete input of 250 valid records. -/
def lines250 : List String := List.replicate 250 "x"

/-! ### Helper lemmas -/

lemma chunkRec_of_lt (n : Nat) (l : List Row) (h : l.length < n) :
    chunkRec n l = ([], l) := by
  rw [chunkRec, dif_neg]
  omega

lemma chunkRec_append (n : Nat) (a b : List Row) (hn : 0 < n)
    (ha : a.length = n) :
    chunkRec n (a ++ b) = (a :: (chunkRec n b).1, (chunkRec n b).2) := by
  rw [chunkRec, dif_pos ⟨hn, by simp [ha]⟩]
  rw [← ha, List.take_left, List.drop_left]

lemma chunkRec_flatten_aux (n : Nat) :
    ∀ (k : Nat) (l : List Row), l.length ≤ k →
      (chunkRec n l).1.flatten ++ (chunkRec n l).2 = l := by
  intro k
  induction k with
  | zero =>
    intro l hl
    have hnil : l = [] := List.length_eq_zero.mp (Nat.le_zero.mp hl)
    subst hnil
    rw [chunkRec, dif_neg (by omega)]
    simp
  | succ k ih =>
    intro l hl
    rw [chunkRec]
    split
    case isTrue h =>
      simp only [List.flatten_cons, List.append_assoc]
      rw [ih (l.drop n) (by simp only [List.length_drop]; omega)]
      exact List.take_append_drop n l
    case isFalse h => simp

lemma chunkRec_flatten (n : Nat) (l : List Row) :
    (chunkRec n l).1.flatten ++ (chunkRec n l).2 = l :=
  chunkRec_flatten_aux n l.length l (Nat.le_refl _)

lemma flatten_with_final (ws : List (List Row)) (b : List Row) :
    (ws ++ if b = [] then [] else [b]).flatten = ws.flatten ++ b := by
  by_cases hb : b = [] <;> simp [hb]

lemma emittedRows_cons_emit (summ : String → String) (d : Dict)
    (ds : List Dict) (h : shouldEmit d = true) :
    emittedRows summ (d :: ds) = rowOf summ d :: emittedRows summ ds := by
  simp [emittedRows, List.filter_cons, h]

lemma emittedRows_cons_skip (summ : String → String) (d : Dict)
    (ds : List Dict) (h : shouldEmit d = false) :
    emittedRows summ (d :: ds) = emittedRows summ ds := by
  simp [emittedRows, List.filter_cons, h]

lemma runLoop_cons_cap (summ : String → String) (c : Option Int)
    (d : Dict) (rest : List Dict) (i : Nat) (buf : List Row)
    (h : capHit c i = true) :
    runLoop summ c (d :: rest) i buf = ⟨[], buf, true, false⟩ := by
  simp [runLoop, h]

lemma runLoop_cons_skip (summ : String → String) (c : Option Int)
    (d : Dict) (rest : List Dict) (i : Nat) (buf : List Row)
    (hc : capHit c i = false) (hs : shouldEmit d = false) :
    runLoop summ c (d :: rest) i buf = runLoop summ c rest (i + 1) buf := by
  rw [runLoop]
  simp only [hc, Bool.false_eq_true, if_false, SongEntry.from_dict]
  simp only [shouldEmit] at hs
  cases hv : dictGet d "lyrics" with
  | str s =>
    rw [hv] at hs
    simp only [pyTruthy, decide_eq_false_iff_not, ne_eq, not_not] at hs
    simp [hs]
  | int m =>
    rw [hv] at hs
    simp [hs]
  | none => simp [pyTruthy]

lemma runLoop_cons_emit (summ : String → String) (c : Option Int)
    (d : Dict) (rest : List Dict) (i : Nat) (buf : List Row)
    (hc : capHit c i = false) (lyr : String)
    (hl : dictGet d "lyrics" = PyVal.str lyr) (ht : lyr ≠ "") :
    runLoop summ c (d :: rest) i buf =
      if (buf ++ [rowOf summ d]).length ≥ 100 then
        let o := runLoop summ c rest (i + 1) []
        ⟨(buf ++ [rowOf summ d]) :: o.writes, o.buffer, o.broke, o.typeErr⟩
      else runLoop summ c rest (i + 1) (buf ++ [rowOf summ d]) := by
  rw [runLoop]
  simp only [hc, Bool.false_eq_true, if_false, SongEntry.from_dict, hl,
    ht, if_false, rowOf]

lemma lyricsWF_emit_str (d : Dict) (hw : lyricsWF d = true)
    (hs : shouldEmit d = true) :
    ∃ lyr, dictGet d "lyrics" = PyVal.str lyr ∧ lyr ≠ "" := by
  simp only [lyricsWF] at hw
  simp only [shouldEmit] at hs
  cases hv : dictGet d "lyrics" with
  | str s =>
    rw [hv] at hs
    simp only [pyTruthy, decide_eq_true_eq] at hs
    exact ⟨s, rfl, hs⟩
  | int m =>
    exfalso
    rw [hv] at hw hs
    simp [pyTruthy] at hw hs
    omega
  | none =>
    rw [hv] at hs
    simp [pyTruthy] at hs

lemma runLoop_noCap (summ : String → String) (c : Option Int)
    (hc : ∀ j, capHit c j = false) :
    ∀ (ds : List Dict) (i : Nat) (buf : List Row),
      (∀ d ∈ ds, lyricsWF d = true) → buf.length < 100 →
      runLoop summ c ds i buf =
        ⟨(chunkRec 100 (buf ++ emittedRows summ ds)).1,
         (chunkRec 100 (buf ++ emittedRows summ ds)).2, false, false⟩ := by
  intro ds
  induction ds with
  | nil =>
    intro i buf _ hbuf
    rw [show runLoop summ c [] i buf = ⟨[], buf, false, false⟩ from rfl]
    rw [show buf ++ emittedRows summ [] = buf from List.append_nil buf]
    rw [chunkRec_of_lt 100 buf hbuf]
  | cons d rest ih =>
    intro i buf hwf hbuf
    have hwd : lyricsWF d = true := hwf d (by simp)
    have hwr : ∀ x ∈ rest, lyricsWF x = true := fun x hx => hwf x (by simp [hx])
    by_cases hs : shouldEmit d = true
    · obtain ⟨lyr, hl, ht⟩ := lyricsWF_emit_str d hwd hs
      rw [runLoop_cons_emit summ c d rest i buf (hc i) lyr hl ht]
      rw [emittedRows_cons_emit summ d rest hs]
      by_cases hfull : (buf ++ [rowOf summ d]).length ≥ 100
      · have h100 : (buf ++ [rowOf summ d]).length = 100 := by
          simp only [List.length_append, List.length_cons, List.length_nil] at hfull ⊢
          omega
        rw [if_pos hfull]
        have hassoc : buf ++ rowOf summ d :: emittedRows summ rest =
            (buf ++ [rowOf summ d]) ++ emittedRows summ rest := by simp
        rw [hassoc, chunkRec_append 100 _ _ (by omega) h100]
        rw [ih (i + 1) [] hwr (by simp)]
        simp
      · rw [if_neg hfull]
        rw [ih (i + 1) (buf ++ [rowOf summ d]) hwr (by omega)]
        simp
    · rw [runLoop_cons_skip summ c d rest i buf (hc i)
        (Bool.not_eq_true _ ▸ hs)]
      rw [emittedRows_cons_skip summ d rest (Bool.not_eq_true _ ▸ hs)]
      exact ih (i + 1) buf hwr hbuf

lemma capHit_some_true (N : Nat) (i : Nat) (hN : 1 ≤ N) (hi : N < i) :
    capHit (some (N : Int)) i = true := by
  simp only [capHit, Bool.and_eq_true, bne_iff_ne, ne_eq, decide_eq_true_eq]
  constructor
  · omega
  · exact_mod_cast hi

lemma capHit_some_false (N : Nat) (i : Nat) (hi : i ≤ N) :
    capHit (some (N : Int)) i = false := by
  simp only [capHit, Bool.and_eq_false_iff]
  right
  simp only [decide_eq_false_iff_not, not_lt]
  exact_mod_cast hi

lemma runLoop_cap (summ : String → String) (N : Nat) (hN : 1 ≤ N) :
    ∀ (ds : List Dict) (i : Nat) (buf : List Row),
      (∀ d ∈ ds, lyricsWF d = true) → buf.length < 100 →
      runLoop summ (some (N : Int)) ds i buf =
        ⟨(chunkRec 100 (buf ++ emittedRows summ (ds.take (N + 1 - i)))).1,
         (chunkRec 100 (buf ++ emittedRows summ (ds.take (N + 1 - i)))).2,
         decide (N + 1 - i < ds.length), false⟩ := by
  intro ds
  induction ds with
  | nil =>
    intro i buf _ hbuf
    rw [show runLoop summ (some (N : Int)) [] i buf = ⟨[], buf, false, false⟩
      from rfl]
    rw [show (([] : List Dict).take (N + 1 - i)) = [] from List.take_nil]
    rw [show buf ++ emittedRows summ [] = buf from List.append_nil buf]
    rw [chunkRec_of_lt 100 buf hbuf]
    simp
  | cons d rest ih =>
    intro i buf hwf hbuf
    have hwd : lyricsWF d = true := hwf d (by simp)
    have hwr : ∀ x ∈ rest, lyricsWF x = true := fun x hx => hwf x (by simp [hx])
    by_cases hcap : N < i
    · rw [runLoop_cons_cap summ _ d rest i buf (capHit_some_true N i hN hcap)]
      rw [show N + 1 - i = 0 from by omega]
      rw [List.take_zero]
      rw [show buf ++ emittedRows summ [] = buf from List.append_nil buf]
      rw [chunkRec_of_lt 100 buf hbuf]
      simp
    · have hile : i ≤ N := by omega
      have hc := capHit_some_false N i hile
      have htake : (d :: rest).take (N + 1 - i) = d :: rest.take (N - i) := by
        rw [show N + 1 - i = (N - i) + 1 from by omega]
        exact List.take_succ_cons
      have hlen : decide (N - i < rest.length) =
          decide (N + 1 - i < (d :: rest).length) := by
        rw [decide_eq_decide]
        simp only [List.length_cons]
        omega
      by_cases hs : shouldEmit d = true
      · obtain ⟨lyr, hl, ht⟩ := lyricsWF_emit_str d hwd hs
        rw [runLoop_cons_emit summ _ d rest i buf hc lyr hl ht]
        rw [htake, emittedRows_cons_emit summ d _ hs]
        by_cases hfull : (buf ++ [rowOf summ d]).length ≥ 100
        · have h100 : (buf ++ [rowOf summ d]).length = 100 := by
            simp only [List.length_append, List.length_cons, List.length_nil]
              at hfull ⊢
            omega
          rw [if_pos hfull]
          have hassoc : buf ++ rowOf summ d :: emittedRows summ
              (rest.take (N - i)) =
              (buf ++ [rowOf summ d]) ++ emittedRows summ
                (rest.take (N - i)) := by simp
          rw [hassoc, chunkRec_append 100 _ _ (by omega) h100]
          rw [ih (i + 1) [] hwr (by simp)]
          rw [show N + 1 - (i + 1) = N - i from by omega]
          simp only [List.nil_append]
          congr 1
        · rw [if_neg hfull]
          rw [ih (i + 1) (buf ++ [rowOf summ d]) hwr (by omega)]
          rw [show N + 1 - (i + 1) = N - i from by omega]
          simp only [List.append_assoc, List.singleton_append]
          congr 1
      · rw [runLoop_cons_skip summ _ d rest i buf hc
          (Bool.not_eq_true _ ▸ hs)]
        rw [htake, emittedRows_cons_skip summ d _ (Bool.not_eq_true _ ▸ hs)]
        rw [ih (i + 1) buf hwr hbuf]
        rw [show N + 1 - (i + 1) = N - i from by omega]
        congr 1

lemma readAux_ok (parse : String → Except String Dict) :
    ∀ (lines : List String) (n : Nat),
      (∀ l ∈ lines, okLine parse l) →
      readAux parse lines n = ⟨parsedRecords parse lines, Option.none⟩ := by
  intro lines
  induction lines with
  | nil => intro n _; rfl
  | cons l rest ih =>
    intro n h
    have hl := h l (by simp)
    have hrest : ∀ x ∈ rest, okLine parse x := fun x hx => h x (by simp [hx])
    rw [readAux]
    by_cases hb : pyStrip l = ""
    · simp only [hb, if_pos rfl, ih (n + 1) hrest]
      simp [parsedRecords, List.filterMap_cons, hb]
    · obtain ⟨d, hd⟩ : ∃ d, parse (pyStrip l) = .ok d := by
        cases hl with
        | inl hbl => exact absurd hbl hb
        | inr he => exact he
      simp only [if_neg hb, hd, ih (n + 1) hrest]
      simp [parsedRecords, List.filterMap_cons, hb, hd, Except.toOption]

lemma readAux_err (parse : String → Except String Dict) (bad : String)
    (post : List String) (e : String)
    (hbad : pyStrip bad ≠ "") (he : parse (pyStrip bad) = .error e) :
    ∀ (pre : List String) (n : Nat), (∀ l ∈ pre, okLine parse l) →
      readAux parse (pre ++ bad :: post) n =
        ⟨parsedRecords parse pre,
         some (n + pre.length, invalidJsonMsg (n + pre.length) e)⟩ := by
  intro pre
  induction pre with
  | nil =>
    intro n _
    rw [List.nil_append, readAux]
    simp [hbad, he, parsedRecords]
  | cons l pre ih =>
    intro n h
    have hl := h l (by simp)
    have hpre : ∀ x ∈ pre, okLine parse x := fun x hx => h x (by simp [hx])
    rw [List.cons_append, readAux]
    have hcount : n + 1 + pre.length = n + (l :: pre).length := by
      simp only [List.length_cons]
      omega
    by_cases hb : pyStrip l = ""
    · simp only [hb, if_pos rfl, ih (n + 1) hpre, hcount]
      simp [parsedRecords, List.filterMap_cons, hb]
    · obtain ⟨d, hd⟩ : ∃ d, parse (pyStrip l) = .ok d := by
        cases hl with
        | inl hbl => exact absurd hbl hb
        | inr hex => exact hex
      simp only [if_neg hb, hd, ih (n + 1) hpre, hcount]
      simp [parsedRecords, List.filterMap_cons, hb, hd, Except.toOption]

lemma goodLine_okLine (parse : String → Except String Dict) (l : String)
    (h : goodLine parse l) : okLine parse l := by
  cases h with
  | inl hb => exact Or.inl hb
  | inr he => exact Or.inr ⟨he.choose, he.choose_spec.1⟩

lemma parsedRecords_wf (parse : String → Except String Dict)
    (lines : List String) (h : ∀ l ∈ lines, goodLine parse l) :
    ∀ d ∈ parsedRecords parse lines, lyricsWF d = true := by
  intro d hd
  simp only [parsedRecords, List.mem_filterMap] at hd
  obtain ⟨l, hl, hp⟩ := hd
  by_cases hb : pyStrip l = ""
  · rw [if_pos hb] at hp
    exact absurd hp (by simp)
  · rw [if_neg hb] at hp
    cases h l hl with
    | inl hbl => exact absurd hbl hb
    | inr he =>
      obtain ⟨d', hd', hw⟩ := he
      rw [hd'] at hp
      simp only [Except.toOption, Option.some.injEq] at hp
      rw [← hp]
      exact hw

lemma run_eq_ok (parse : String → Except String Dict)
    (summ : String → String) (lines : List String) (maxItems : Option Int)
    (recs : List Dict) (ws : List (List Row)) (b : List Row) (brk : Bool)
    (hread : JSONLReader.read parse lines = ⟨recs, Option.none⟩)
    (hloop : runLoop summ maxItems recs 1 [] = ⟨ws, b, brk, false⟩) :
    LyricsDataPipeline.run parse summ lines maxItems =
      ⟨ws ++ (if b = [] then [] else [b]), Option.none⟩ := by
  simp only [LyricsDataPipeline.run, hread, hloop]
  cases brk <;> simp

lemma run_eq_err (parse : String → Except String Dict)
    (summ : String → String) (lines : List String) (maxItems : Option Int)
    (recs : List Dict) (n : Nat) (m : String)
    (ws : List (List Row)) (b : List Row)
    (hread : JSONLReader.read parse lines = ⟨recs, some (n, m)⟩)
    (hloop : runLoop summ maxItems recs 1 [] = ⟨ws, b, false, false⟩) :
    LyricsDataPipeline.run parse summ lines maxItems =
      ⟨ws, some (.invalidJson n m)⟩ := by
  simp only [LyricsDataPipeline.run, hread, hloop]
  simp

lemma runLoop_cons_typeErr (summ : String → String) (c : Option Int)
    (d : Dict) (rest : List Dict) (i : Nat) (buf : List Row)
    (hc : capHit c i = false) (m : Int)
    (hv : dictGet d "lyrics" = PyVal.int m) (hm : m ≠ 0) :
    runLoop summ c (d :: rest) i buf = ⟨[], buf, false, true⟩ := by
  rw [runLoop]
  simp [hc, SongEntry.from_dict, hv, pyTruthy, hm]

lemma runLoop_capHit_congr (summ : String → String) (c₁ c₂ : Option Int)
    (h : ∀ j, capHit c₁ j = capHit c₂ j) :
    ∀ (ds : List Dict) (i : Nat) (buf : List Row),
      runLoop summ c₁ ds i buf = runLoop summ c₂ ds i buf := by
  intro ds
  induction ds with
  | nil => intro i buf; rfl
  | cons d rest ih =>
    intro i buf
    cases hcap : capHit c₂ i with
    | true =>
      rw [runLoop_cons_cap summ c₁ d rest i buf ((h i).trans hcap),
        runLoop_cons_cap summ c₂ d rest i buf hcap]
    | false =>
      have hc1 : capHit c₁ i = false := (h i).trans hcap
      cases hv : dictGet d "lyrics" with
      | str s =>
        by_cases hs : s = ""
        · have hse : shouldEmit d = false := by
            simp [shouldEmit, hv, hs, pyTruthy]
          rw [runLoop_cons_skip summ c₁ d rest i buf hc1 hse,
            runLoop_cons_skip summ c₂ d rest i buf hcap hse]
          exact ih (i + 1) buf
        · rw [runLoop_cons_emit summ c₁ d rest i buf hc1 s hv hs,
            runLoop_cons_emit summ c₂ d rest i buf hcap s hv hs]
          by_cases hfull : (buf ++ [rowOf summ d]).length ≥ 100
          · rw [if_pos hfull, if_pos hfull, ih (i + 1) []]
          · rw [if_neg hfull, if_neg hfull, ih (i + 1) _]
      | int m =>
        by_cases hm : m = 0
        · have hse : shouldEmit d = false := by
            simp [shouldEmit, hv, hm, pyTruthy]
          rw [runLoop_cons_skip summ c₁ d rest i buf hc1 hse,
            runLoop_cons_skip summ c₂ d rest i buf hcap hse]
          exact ih (i + 1) buf
        · rw [runLoop_cons_typeErr summ c₁ d rest i buf hc1 m hv hm,
            runLoop_cons_typeErr summ c₂ d rest i buf hcap m hv hm]
      | none =>
        have hse : shouldEmit d = false := by
          simp [shouldEmit, hv, pyTruthy]
        rw [runLoop_cons_skip summ c₁ d rest i buf hc1 hse,
          runLoop_cons_skip summ c₂ d rest i buf hcap hse]
        exact ih (i + 1) buf

/-! ### Claim theorems -/

/-- C9: the writer truncates the output file on construction, so running
the pipeline twice against the same output path leaves only the second
run's pairs in the sink, whatever the first run (or any prior content)
wrote. -/
theorem second_run_overwrites_sink (parse : String → Except String Dict)
    (summ : String → String) (s₀ : Sink) (lines₁ lines₂ : List String)
    (cap₁ cap₂ : Option Int) :
    runFile parse summ (runFile parse summ s₀ lines₁ cap₁) lines₂ cap₂ =
      runFile parse summ [] lines₂ cap₂ ∧
    ∀ s : Sink, JSONLWriter.openSink true s = [] := by
  constructor
  · simp [runFile, JSONLWriter.openSink]
  · intro s; rfl

/-- C10: because the cap guard tests Python truthiness of `max_items`
before comparing, `max_items = 0` behaves exactly like no cap at all:
the run is identical to the uncapped run, so every record is processed. -/
theorem cap_zero_means_no_cap (parse : String → Except String Dict)
    (summ : String → String) (lines : List String) :
    LyricsDataPipeline.run parse summ lines (some 0) =
      LyricsDataPipeline.run parse summ lines Option.none := by
  have h : ∀ j, capHit (some 0) j = capHit Option.none j := by
    intro j; simp [capHit]
  simp only [LyricsDataPipeline.run]
  rw [runLoop_capHit_congr summ (some 0) Option.none h]

/-- C5: the completion builder trims the outer whitespace of both title
and lyrics, keeps interior whitespace verbatim, returns the trimmed
lyrics alone when the trimmed title is empty, and otherwise joins trimmed
title and trimmed lyrics with one blank line; including the two concrete
instances the spec lists. -/
theorem completion_builder_spec (title lyrics : String) :
    (pyStrip title = "" →
      LyricsPostProcessor.add_title_to_lyrics title lyrics =
        pyStrip lyrics) ∧
    (pyStrip title ≠ "" →
      LyricsPostProcessor.add_title_to_lyrics title lyrics =
        pyStrip title ++ "\n\n" ++ pyStrip lyrics) ∧
    LyricsPostProcessor.add_title_to_lyrics "" lyrics = pyStrip lyrics ∧
    LyricsPostProcessor.add_title_to_lyrics " Title \n" " L1\nL2 " =
      "Title\n\nL1\nL2" := by
  refine ⟨fun h => ?_, fun h => ?_, ?_, ?_⟩
  · simp [LyricsPostProcessor.add_title_to_lyrics, h]
  · simp [LyricsPostProcessor.add_title_to_lyrics, h]
  · simp [LyricsPostProcessor.add_title_to_lyrics,
      show pyStrip "" = "" from rfl]
  · decide

/-- Witness for C5 at the spec's concrete inputs, discharging both the
empty-title and the non-empty-title hypothesis. -/
theorem completion_builder_spec_inst :
    LyricsPostProcessor.add_title_to_lyrics " Title \n" " L1\nL2 " =
      pyStrip " Title \n" ++ "\n\n" ++ pyStrip " L1\nL2 " ∧
    LyricsPostProcessor.add_title_to_lyrics "" "  x " = pyStrip "  x " :=
  ⟨(completion_builder_spec " Title \n" " L1\nL2 ").2.1 (by decide),
   (completion_builder_spec "" "  x ").1 (by decide)⟩

/-- C6 counterexample: at a concrete record and summary, the built prompt
differs from the spec's quoted template, because the code appends no
period after the summary. -/
theorem build_prompt_period_cex :
    PromptBuilder.build_prompt
        ⟨PyVal.str "Nas", PyVal.str "T", PyVal.int 1999, PyVal.str "x"⟩
        "money" ≠
      promptTemplateSpec
        ⟨PyVal.str "Nas", PyVal.str "T", PyVal.int 1999, PyVal.str "x"⟩
        "money" := by
  decide

/-- C6 (amended): the prompt builder is a pure function of record and
summary, and always equals the fixed template with year, rapper and
summary substituted — with no trailing period after the summary. -/
theorem build_prompt_template (entry : SongEntry) (summary : String) :
    PromptBuilder.build_prompt entry summary =
      promptTemplate entry summary := by
  unfold PromptBuilder.build_prompt promptTemplate
  rw [← String.append_assoc]
  congr 1
  rw [String.append_assoc]
  congr 1

/-- C3: a record whose lyrics value is falsy (absent, `None`, or empty)
is skipped entirely: the loop emits nothing for it, writes nothing,
raises nothing, and continues with the next record at the next index
with the batch buffer unchanged. -/
theorem skip_record_without_lyrics (summ : String → String)
    (c : Option Int) (d : Dict) (rest : List Dict) (i : Nat)
    (buf : List Row) (hc : capHit c i = false)
    (hs : pyTruthy (dictGet d "lyrics") = false) :
    runLoop summ c (d :: rest) i buf = runLoop summ c rest (i + 1) buf :=
  runLoop_cons_skip summ c d rest i buf hc hs

/-- Witness for C3: a concrete record with empty lyrics, one with the
key absent, and the containing run on both plus a valid record. -/
theorem skip_record_without_lyrics_inst :
    runLoop (fun _ => "s") Option.none
        [[("lyrics", PyVal.str "")], [("title", PyVal.str "t")]] 1 [] =
      runLoop (fun _ => "s") Option.none [[("title", PyVal.str "t")]] 2 [] :=
  skip_record_without_lyrics (fun _ => "s") Option.none
    [("lyrics", PyVal.str "")] [[("title", PyVal.str "t")]] 1 []
    (by decide) (by decide)

/-- C1: on an input of valid records, each record with truthy lyrics
contributes exactly one pair, pairs reach the sink in input order with no
duplicates (the sink is exactly the one-pair-per-emitted-record list),
the run raises nothing, and every object written has exactly the keys
"prompt" and "completion" in that order. -/
theorem run_one_pair_per_record (parse : String → Except String Dict)
    (summ : String → String) (lines : List String)
    (h : ∀ l ∈ lines, goodLine parse l) :
    sinkOf (LyricsDataPipeline.run parse summ lines Option.none) =
      emittedRows summ (parsedRecords parse lines) ∧
    (LyricsDataPipeline.run parse summ lines Option.none).error =
      Option.none ∧
    ∀ row ∈ sinkOf (LyricsDataPipeline.run parse summ lines Option.none),
      row.map Prod.fst = ["prompt", "completion"] := by
  have hok : ∀ l ∈ lines, okLine parse l :=
    fun l hl => goodLine_okLine parse l (h l hl)
  have hread := readAux_ok parse lines 1 hok
  have hwf := parsedRecords_wf parse lines h
  have hloop := runLoop_noCap summ Option.none (fun _ => rfl)
    (parsedRecords parse lines) 1 [] hwf (by simp)
  rw [List.nil_append] at hloop
  have hrun := run_eq_ok parse summ lines Option.none _ _ _ _ hread hloop
  have hsink :
      sinkOf (LyricsDataPipeline.run parse summ lines Option.none) =
        emittedRows summ (parsedRecords parse lines) := by
    rw [hrun]
    unfold sinkOf
    rw [flatten_with_final]
    exact chunkRec_flatten 100 _
  refine ⟨hsink, by rw [hrun], ?_⟩
  intro row hrow
  rw [hsink] at hrow
  simp only [emittedRows, List.mem_map, List.mem_filter] at hrow
  obtain ⟨d, ⟨hd, hse⟩, hrow⟩ := hrow
  obtain ⟨lyr, hl, _⟩ := lyricsWF_emit_str d (hwf d hd) hse
  rw [← hrow]
  simp [rowOf, SongEntry.from_dict, hl, mkRow]

/-- C2: with a configured cap `N ≥ 1` on valid input, exactly the records
at positions `1..N` of the raw record sequence are processed (the skip
policy still applies within them, and the cap counts raw positions, not
emitted pairs), the record at position `N + 1` is never processed, and the
run terminates cleanly with no error. -/
theorem run_item_cap_boundary (parse : String → Except String Dict)
    (summ : String → String) (lines : List String) (N : Nat) (hN : 1 ≤ N)
    (h : ∀ l ∈ lines, goodLine parse l) :
    sinkOf (LyricsDataPipeline.run parse summ lines (some (N : Int))) =
      emittedRows summ ((parsedRecords parse lines).take N) ∧
    (LyricsDataPipeline.run parse summ lines (some (N : Int))).error =
      Option.none := by
  have hok : ∀ l ∈ lines, okLine parse l :=
    fun l hl => goodLine_okLine parse l (h l hl)
  have hread := readAux_ok parse lines 1 hok
  have hwf := parsedRecords_wf parse lines h
  have hloop := runLoop_cap summ N hN (parsedRecords parse lines) 1 []
    hwf (by simp)
  rw [List.nil_append, show N + 1 - 1 = N from by omega] at hloop
  have hrun := run_eq_ok parse summ lines (some (N : Int)) _ _ _ _
    hread hloop
  constructor
  · rw [hrun]
    unfold sinkOf
    rw [flatten_with_final]
    exact chunkRec_flatten 100 _
  · rw [hrun]

/-- C4: pairs accumulate in the buffer, every full batch of 100 is
written and cleared, and on normal completion of iteration the remainder
is flushed exactly once: the write sequence is precisely the 100-chunking
of the emitted pairs followed by the non-empty remainder. That holds both
for a run over the whole input and for a run stopped early via a cap
`N ≥ 1`, where the chunked pairs are those of the first `N` records; on a
concrete input of 250 valid records the sink receives exactly three
writes of sizes 100, 100 and 50. -/
theorem run_batch_flushes (parse : String → Except String Dict)
    (summ : String → String) (lines : List String)
    (h : ∀ l ∈ lines, goodLine parse l) :
    (LyricsDataPipeline.run parse summ lines Option.none).writes =
      (chunkRec 100 (emittedRows summ (parsedRecords parse lines))).1 ++
        (if (chunkRec 100
              (emittedRows summ (parsedRecords parse lines))).2 = []
         then []
         else [(chunkRec 100
              (emittedRows summ (parsedRecords parse lines))).2]) ∧
    (∀ N : Nat, 1 ≤ N →
      (LyricsDataPipeline.run parse summ lines (some (N : Int))).writes =
        (chunkRec 100 (emittedRows summ
            ((parsedRecords parse lines).take N))).1 ++
          (if (chunkRec 100 (emittedRows summ
                ((parsedRecords parse lines).take N))).2 = []
           then []
           else [(chunkRec 100 (emittedRows summ
                ((parsedRecords parse lines).take N))).2])) ∧
    ((LyricsDataPipeline.run constParse demoSumm lines250
        Option.none).writes).map List.length = [100, 100, 50] := by
  have hok : ∀ l ∈ lines, okLine parse l :=
    fun l hl => goodLine_okLine parse l (h l hl)
  have hread := readAux_ok parse lines 1 hok
  have hwf := parsedRecords_wf parse lines h
  have hloop := runLoop_noCap summ Option.none (fun _ => rfl)
    (parsedRecords parse lines) 1 [] hwf (by simp)
  rw [List.nil_append] at hloop
  have hrun := run_eq_ok parse summ lines Option.none _ _ _ _ hread hloop
  refine ⟨by rw [hrun], ?_, by decide⟩
  intro N hN
  have hloopc := runLoop_cap summ N hN (parsedRecords parse lines) 1 []
    hwf (by simp)
  rw [List.nil_append, show N + 1 - 1 = N from by omega] at hloopc
  have hrunc := run_eq_ok parse summ lines (some (N : Int)) _ _ _ _
    hread hloopc
  rw [hrunc]

/-- C7: the reader yields exactly one decoded record per non-blank line
in input order, skipping blank lines silently; the first malformed
non-blank line aborts the whole read with an error carrying the 1-based
physical line number (blank lines included in the count), whose message
spells that number out, and no record at or after that line is yielded. -/
theorem reader_contract (parse : String → Except String Dict)
    (lines : List String) :
    ((∀ l ∈ lines, okLine parse l) →
      JSONLReader.read parse lines =
        ⟨parsedRecords parse lines, Option.none⟩) ∧
    (∀ (pre : List String) (bad : String) (post : List String)
        (e : String),
      lines = pre ++ bad :: post →
      (∀ l ∈ pre, okLine parse l) →
      pyStrip bad ≠ "" →
      parse (pyStrip bad) = .error e →
      JSONLReader.read parse lines =
        ⟨parsedRecords parse pre,
         some (pre.length + 1, invalidJsonMsg (pre.length + 1) e)⟩ ∧
      invalidJsonMsg (pre.length + 1) e =
        "Invalid JSON on line " ++ toString (pre.length + 1) ++ ": " ++
          e) := by
  constructor
  · intro h
    exact readAux_ok parse lines 1 h
  · intro pre bad post e hsplit hpre hbad he
    subst hsplit
    refine ⟨?_, rfl⟩
    have hr := readAux_err parse bad post e hbad he pre 1 hpre
    rw [show 1 + pre.length = pre.length + 1 from by omega] at hr
    exact hr

/-- C8: a malformed line mid-run propagates its fatal error out of the
run, and the sink then holds exactly the full 100-pair batches flushed
before the error: no pair from the bad line or beyond, and no final
flush of the partially filled buffer. -/
theorem run_aborts_after_flushed_batches (parse : String → Except String Dict)
    (summ : String → String) (pre : List String) (bad : String)
    (post : List String) (e : String)
    (hpre : ∀ l ∈ pre, goodLine parse l)
    (hbad : pyStrip bad ≠ "") (he : parse (pyStrip bad) = .error e) :
    LyricsDataPipeline.run parse summ (pre ++ bad :: post) Option.none =
      ⟨(chunkRec 100 (emittedRows summ (parsedRecords parse pre))).1,
       some (.invalidJson (pre.length + 1)
         (invalidJsonMsg (pre.length + 1) e))⟩ := by
  have hok : ∀ l ∈ pre, okLine parse l :=
    fun l hl => goodLine_okLine parse l (hpre l hl)
  have hread := readAux_err parse bad post e hbad he pre 1 hok
  rw [show 1 + pre.length = pre.length + 1 from by omega] at hread
  have hwf := parsedRecords_wf parse pre hpre
  have hloop := runLoop_noCap summ Option.none (fun _ => rfl)
    (parsedRecords parse pre) 1 [] hwf (by simp)
  rw [List.nil_append] at hloop
  exact run_eq_err parse summ (pre ++ bad :: post) Option.none _ _ _ _ _
    hread hloop

/-- Witness for C1 on a concrete input with a valid record, a blank
line, an empty-lyrics record and another valid record. -/
theorem run_one_pair_per_record_inst :
    sinkOf (LyricsDataPipeline.run demoParse demoSumm ["A", "", "E", "A"]
        Option.none) =
      emittedRows demoSumm (parsedRecords demoParse ["A", "", "E", "A"]) ∧
    (LyricsDataPipeline.run demoParse demoSumm ["A", "", "E", "A"]
        Option.none).error = Option.none ∧
    ∀ row ∈ sinkOf (LyricsDataPipeline.run demoParse demoSumm
        ["A", "", "E", "A"] Option.none),
      row.map Prod.fst = ["prompt", "completion"] :=
  run_one_pair_per_record demoParse demoSumm ["A", "", "E", "A"]
    (by
      intro l hl
      simp only [List.mem_cons, List.not_mem_nil, or_false] at hl
      rcases hl with rfl | rfl | rfl | rfl
      · exact Or.inr ⟨_, rfl, by decide⟩
      · exact Or.inl rfl
      · exact Or.inr ⟨_, rfl, by decide⟩
      · exact Or.inr ⟨_, rfl, by decide⟩)

/-- Witness for C2 with cap 1 on two valid records. -/
theorem run_item_cap_boundary_inst :
    sinkOf (LyricsDataPipeline.run demoParse demoSumm ["A", "A"]
        (some 1)) =
      emittedRows demoSumm ((parsedRecords demoParse ["A", "A"]).take 1) ∧
    (LyricsDataPipeline.run demoParse demoSumm ["A", "A"]
        (some 1)).error = Option.none :=
  run_item_cap_boundary demoParse demoSumm ["A", "A"] 1 (by decide)
    (by
      intro l hl
      simp only [List.mem_cons, List.not_mem_nil, or_false] at hl
      rcases hl with rfl | rfl
      · exact Or.inr ⟨_, rfl, by decide⟩
      · exact Or.inr ⟨_, rfl, by decide⟩)

/-- Witness for C4 on a two-record input, both uncapped and stopped
early by a cap of 1. -/
theorem run_batch_flushes_inst :
    (LyricsDataPipeline.run demoParse demoSumm ["A", "A"]
        Option.none).writes =
      (chunkRec 100 (emittedRows demoSumm
          (parsedRecords demoParse ["A", "A"]))).1 ++
        (if (chunkRec 100 (emittedRows demoSumm
              (parsedRecords demoParse ["A", "A"]))).2 = []
         then []
         else [(chunkRec 100 (emittedRows demoSumm
              (parsedRecords demoParse ["A", "A"]))).2]) ∧
    (LyricsDataPipeline.run demoParse demoSumm ["A", "A"]
        (some 1)).writes =
      (chunkRec 100 (emittedRows demoSumm
          ((parsedRecords demoParse ["A", "A"]).take 1))).1 ++
        (if (chunkRec 100 (emittedRows demoSumm
              ((parsedRecords demoParse ["A", "A"]).take 1))).2 = []
         then []
         else [(chunkRec 100 (emittedRows demoSumm
              ((parsedRecords demoParse ["A", "A"]).take 1))).2]) ∧
    ((LyricsDataPipeline.run constParse demoSumm lines250
        Option.none).writes).map List.length = [100, 100, 50] := by
  have H := run_batch_flushes demoParse demoSumm ["A", "A"]
    (by
      intro l hl
      simp only [List.mem_cons, List.not_mem_nil, or_false] at hl
      rcases hl with rfl | rfl
      · exact Or.inr ⟨_, rfl, by decide⟩
      · exact Or.inr ⟨_, rfl, by decide⟩)
  exact ⟨H.1, H.2.1 1 (by decide), H.2.2⟩

/-- Witness for C7: a valid line, then a malformed line at physical
position 2, then a line never reached. -/
theorem reader_contract_inst :
    JSONLReader.read demoParse ["A", ""] =
      ⟨parsedRecords demoParse ["A", ""], Option.none⟩ ∧
    JSONLReader.read demoParse ["A", "bad", "A"] =
      ⟨parsedRecords demoParse ["A"],
       some (2, invalidJsonMsg 2 "boom")⟩ ∧
    invalidJsonMsg 2 "boom" =
      "Invalid JSON on line " ++ toString 2 ++ ": " ++ "boom" :=
  ⟨(reader_contract demoParse ["A", ""]).1
    (by
      intro l hl
      simp only [List.mem_cons, List.not_mem_nil, or_false] at hl
      rcases hl with rfl | rfl
      · exact Or.inr ⟨_, rfl⟩
      · exact Or.inl rfl),
   (reader_contract demoParse ["A", "bad", "A"]).2 ["A"] "bad" ["A"] "boom"
    rfl
    (by
      intro l hl
      simp only [List.mem_singleton] at hl
      subst hl
      exact Or.inr ⟨_, rfl⟩)
    (by decide) rfl⟩

/-- Witness for C8: one valid record, then a malformed line. -/
theorem run_aborts_after_flushed_batches_inst :
    LyricsDataPipeline.run demoParse demoSumm ["A", "bad"] Option.none =
      ⟨(chunkRec 100 (emittedRows demoSumm
          (parsedRecords demoParse ["A"]))).1,
       some (.invalidJson 2 (invalidJsonMsg 2 "boom"))⟩ :=
  run_aborts_after_flushed_batches demoParse demoSumm ["A"] "bad" []
    "boom"
    (by
      intro l hl
      simp only [List.mem_singleton] at hl
      subst hl
      exact Or.inr ⟨_, rfl, by decide⟩)
    (by decide) rfl

end CreateTrainingPairs
